import Mathlib

namespace Toolgun

/-! Shallow embedding of src/main.py (classes Tool and App) together with the
parts of src/hardware.py the core logic touches (screen width, backlight and
sleep commands).  Time is modelled as an exact rational number; the several
calls to time.time() within one update tick are modelled as reading one and
the same clock value `now`.  External effects (audio playback, GPIO pulses,
backlight, frame presentation) are modelled as an event trace; the composed
frame is modelled by a small description of the paste operations performed. -/

/-- Maximum tools that can be loaded into memory (App.MAX_TOOLS, main.py line 233). -/
def MAX_TOOLS : ℕ := 60

/-- Fixed fade window for the yellow title highlight
(Tool.YELLOW_FADE_TIME = 0.5, main.py line 29). -/
def yellowFadeTime : ℚ := 1 / 2

/-- Screen width in pixels (hardware.Screen fixes width = 240, hardware.py line 43). -/
def screenWidth : ℕ := 240

/-- Per-tool configuration dictionary (read by Tool.__init__, main.py lines 46-58).
A field holds `none` exactly when the corresponding key is absent from the dict. -/
structure ToolConfig where
  name : String
  hold : Option Bool
  sounds : Option (List String)
  sound_order : Option String
  sound_replay : Option ℚ
  sound_overlap : Option Bool
  descriptions : Option (List String)
  background : Option String
  light : Option Bool
  motor : Option Bool
  deriving DecidableEq

/-- Immutable per-tool fields after Tool.__init__ has applied its defaults
(main.py lines 46-58).  `_sounds` (the loaded wave objects, main.py lines
102-108) mirrors `sounds` element-wise, so playback is modelled by the index
into `sounds`. -/
structure Tool where
  name : String
  hold : Bool
  sounds : List String
  sound_order : String
  sound_replay : ℚ
  sound_overlap : Bool
  descriptions : List String
  background : String
  light_up : Bool
  motor_spin : Bool
  deriving DecidableEq

/-- Tool.__init__ lines 46-58: `config["k"] if "k" in config else default`. -/
def mkTool (default_background : String) (c : ToolConfig) : Tool :=
  { name := c.name
    hold := c.hold.getD false
    sounds := c.sounds.getD []
    sound_order := c.sound_order.getD "random"
    sound_replay := c.sound_replay.getD 0
    sound_overlap := c.sound_overlap.getD true
    descriptions := c.descriptions.getD []
    background := c.background.getD default_background
    light_up := c.light.getD true
    motor_spin := c.motor.getD true }

/-- Mutable runtime state of a Tool.  `playbacks` holds the sound index of
each tracked playback handle (main.py self._playbacks); `loaded` is
self._loaded. -/
structure ToolState where
  description_selector : ℕ
  sound_selector : ℕ
  init_timer : Option ℚ
  replay_timer : ℚ
  playbacks : List ℕ
  loaded : Bool
  deriving DecidableEq

/-- Observable commands emitted by the core towards audio and hardware sinks. -/
inductive Event where
  | playSound (idx : ℕ)
  | stopPlaybacks
  | flashLed
  | spinMotor
  | nextItemSound
  | equipItemSound
  | setBacklight (duty : ℕ)
  | setSleep (isOn : Bool)
  deriving DecidableEq

/-- Tool._manage_playbacks (main.py lines 152-159): drop every handle whose
playback has finished.  Whether a handle is still playing is external (the
audio engine); it enters as the oracle `playing`. -/
def managePlaybacks (s : ToolState) (playing : ℕ → Bool) : ToolState :=
  { s with playbacks := s.playbacks.filter playing }

/-- Tool._play_sound lines 122-126: the `if sound:` body once a sound has been
chosen.  When overlap is disallowed all tracked playbacks are stopped and
discarded first; then playback of sound `idx` starts and its handle is
tracked; the replay timer is pushed to `now + sound_replay`. -/
def startPlayback (t : Tool) (s : ToolState) (now : ℚ) (idx : ℕ) :
    ToolState × List Event :=
  let (s, ev) :=
    if t.sound_overlap then (s, ([] : List Event))
    else ({ s with playbacks := [] }, [Event.stopPlaybacks])
  ({ s with playbacks := s.playbacks ++ [idx], replay_timer := now + t.sound_replay },
   ev ++ [Event.playSound idx])

/-- Tool._play_sound (main.py lines 113-126).  The order string "selective"
advances the sequential selector modulo len(sounds) (ZeroDivisionError on an
empty list); "random" picks random.choice of the loaded sounds (IndexError on
an empty list), modelled by the oracle `rand` taken modulo the length; any
other order string leaves `sound = None` and the call does nothing. -/
def Tool.play_sound (t : Tool) (s : ToolState) (now : ℚ) (rand : ℕ) :
    Except String (ToolState × List Event) :=
  if t.sound_order = "selective" then
    if t.sounds.length = 0 then Except.error "ZeroDivisionError"
    else
      let sel := (s.sound_selector + 1) % t.sounds.length
      Except.ok (startPlayback t { s with sound_selector := sel } now sel)
  else if t.sound_order = "random" then
    if t.sounds.length = 0 then Except.error "IndexError"
    else Except.ok (startPlayback t s now (rand % t.sounds.length))
  else Except.ok (s, [])

/-- Tool.reset (main.py lines 63-70): description selector back to 0 (the
re-rendered description panel is display-only), sound selector back to 0,
fade timer stamped to now, all playbacks stopped. -/
def resetToolState (s : ToolState) (now : ℚ) : ToolState :=
  { s with description_selector := 0
           sound_selector := 0
           init_timer := some now
           playbacks := [] }

/-- Main.py lines 163-166: on a trigger, when descriptions exist the
description selector advances modulo len(descriptions) and the panel is
re-rendered (display-only). -/
def descStep (t : Tool) (s : ToolState) : ToolState :=
  if t.descriptions ≠ [] then
    { s with description_selector :=
        (s.description_selector + 1) % t.descriptions.length }
  else s

/-- Tool.trigger (main.py lines 161-179): advance the description selector
when descriptions exist, play a sound when sounds exist, reap finished
playbacks, then pulse the light and the motor as configured. -/
def Tool.trigger (t : Tool) (s : ToolState) (now : ℚ) (rand : ℕ)
    (playing : ℕ → Bool) : Except String (ToolState × List Event) :=
  match (if t.sounds ≠ [] then Tool.play_sound t (descStep t s) now rand
         else Except.ok (descStep t s, ([] : List Event))) with
  | Except.error e => Except.error e
  | Except.ok (s2, ev) =>
    Except.ok (managePlaybacks s2 playing,
      ev ++ (if t.light_up then [Event.flashLed] else [])
         ++ (if t.motor_spin then [Event.spinMotor] else []))

/-- Tool.loop (main.py lines 181-192): the per-tick body while a holding tool
is held.  Replays the sound once `now` passes the replay timer (when
sound_replay is non-zero and sounds exist), pulses light and motor, reaps
finished playbacks. -/
def Tool.loop (t : Tool) (s : ToolState) (now : ℚ) (rand : ℕ)
    (playing : ℕ → Bool) : Except String (ToolState × List Event) :=
  match (if t.sound_replay ≠ 0 ∧ now > s.replay_timer ∧ t.sounds ≠ [] then
           Tool.play_sound t s now rand
         else Except.ok (s, ([] : List Event))) with
  | Except.error e => Except.error e
  | Except.ok (s1, ev) =>
    Except.ok (managePlaybacks s1 playing,
      ev ++ (if t.light_up then [Event.flashLed] else [])
         ++ (if t.motor_spin then [Event.spinMotor] else []))

/-- Python float modulo for a positive modulus: `a % m = a - m * floor(a / m)`. -/
def pyMod (a m : ℚ) : ℚ := a - m * ((Int.floor (a / m) : ℤ) : ℚ)

/-- Scroll position of the moving title (main.py line 205):
`x = screen.width - int((now*160) % (w + screen.width // 2))`
for a title cache of pixel width `w`. -/
def xScroll (now : ℚ) (w sw : ℕ) : ℤ :=
  (sw : ℤ) - Int.floor (pyMod (now * 160) ((w + sw / 2 : ℕ) : ℚ))

/-- Title blend factor used at main.py line 208:
`min((now - self._init_timer) / YELLOW_FADE_TIME, 1)`. -/
def blendFactor (now t0 : ℚ) : ℚ := min ((now - t0) / yellowFadeTime) 1

/-- Description of the frame composition performed by one Tool.render call. -/
structure RenderOut where
  textPos : ℤ × ℤ
  ghostPos : Option (ℤ × ℤ)
  blend : Option ℚ
  descriptionShown : Bool
  deriving DecidableEq

/-- Tool.render (main.py lines 194-218).  Asserts the content is loaded;
computes the scroll position; while the fade timer is armed blends the yellow
cache into the white one with `blendFactor` and clears the timer once `now`
has passed `timer + yellowFadeTime`; pastes the title at the scroll position
and pastes the wraparound ghost copy at `x - w - sw/2` exactly when that
position plus the title width is still positive (line 214).  The modulus
`w + sw/2` is positive for every real title cache (its width is the font
width plus 5); a zero modulus would raise ZeroDivisionError. -/
def Tool.render (t : Tool) (s : ToolState) (now : ℚ) (w sw : ℕ) (textY : ℤ) :
    Except String (ToolState × RenderOut) :=
  if s.loaded = false then Except.error "AssertionError: Tool content has not been loaded!!"
  else if w + sw / 2 = 0 then Except.error "ZeroDivisionError"
  else
    let x := xScroll now w sw
    let blend : Option ℚ :=
      match s.init_timer with
      | some t0 => some (blendFactor now t0)
      | none => none
    let s' :=
      match s.init_timer with
      | some t0 =>
        if now > t0 + yellowFadeTime then { s with init_timer := none } else s
      | none => s
    let ghostX : ℤ := x - (w : ℤ) - ((sw / 2 : ℕ) : ℤ)
    Except.ok (s', { textPos := (x, textY)
                     ghostPos := if ghostX + (w : ℤ) > 0 then some (ghostX, textY) else none
                     blend := blend
                     descriptionShown := t.descriptions ≠ [] })

/-- Application configuration consumed by the core (config.json keys read in
main.py).  `font_width` models `app.font.getsize(text)[0]` — the pixel width
the external font engine reports for a string.  `simulate` is the
command-line simulation flag that gates the raw backlight calls. -/
structure Config where
  tool_change_timeout : ℚ
  sleep_timeout : ℚ
  default_background : String
  text_scroll_y : ℤ
  font_width : String → ℕ
  simulate : Bool
  tools : List ToolConfig

/-- Width of a tool's cached title render: font width plus 5
(main.py line 91: `Image.new(..., (font_size[0]+5, ...))`). -/
def titleWidth (cfg : Config) (t : Tool) : ℕ := cfg.font_width t.name + 5

/-- Mutable App state (App.__init__, main.py lines 242-271).  `last_trigger`
is an Option because Python initialises it to the number 0 but later assigns
it from `_trigger_hold`; in reachable states it is always `some`. -/
structure AppState where
  button_change : Bool
  current_tool : ℕ
  trigger_hold : Option ℚ
  was_changing_tool : Bool
  last_trigger : Option ℚ
  sleep_mode : Bool
  sleep_timer : ℚ
  tools : List Tool
  toolStates : List ToolState
  deriving DecidableEq

/-- Initial runtime state of the tool at position `i` after App.__init__:
Tool.__init__ runs reset() (stamping the fade timer) and load_content() is
called exactly for the first MAX_TOOLS tools (main.py lines 267-271). -/
def initToolState (now : ℚ) (i : ℕ) : ToolState :=
  { description_selector := 0
    sound_selector := 0
    init_timer := some now
    replay_timer := now
    playbacks := []
    loaded := decide (i < MAX_TOOLS) }

/-- App.__init__ (main.py lines 242-271): field initialisation and tool
construction.  Sound/font loading is external content handling. -/
def appInit (cfg : Config) (now : ℚ) : AppState :=
  { button_change := false
    current_tool := 0
    trigger_hold := none
    was_changing_tool := false
    last_trigger := some 0
    sleep_mode := false
    sleep_timer := now + cfg.sleep_timeout
    tools := cfg.tools.map (mkTool cfg.default_background)
    toolStates := (List.range cfg.tools.length).map (initToolState now) }

/-- `self.tools[i]` with Python IndexError semantics. -/
def getTool (st : AppState) (i : ℕ) : Except String Tool :=
  match st.tools.get? i with
  | some t => Except.ok t
  | none => Except.error "IndexError"

/-- Runtime state of tool `i`, with Python IndexError semantics. -/
def getToolState (st : AppState) (i : ℕ) : Except String ToolState :=
  match st.toolStates.get? i with
  | some ts => Except.ok ts
  | none => Except.error "IndexError"

/-- Store an updated runtime state for tool `i`. -/
def setToolState (st : AppState) (i : ℕ) (ts : ToolState) : AppState :=
  { st with toolStates := st.toolStates.set i ts }

/-- Numeric use of a value that may be Python None raises TypeError. -/
def asNum (v : Option ℚ) : Except String ℚ :=
  match v with
  | some x => Except.ok x
  | none => Except.error "TypeError"

/-- App.next_tool (main.py lines 277-284): reset the outgoing tool, advance
the index modulo the tool count, reset the incoming tool, flag the change and
play the "next item" cue. -/
def next_tool (st : AppState) (now : ℚ) : Except String (AppState × List Event) :=
  match getToolState st st.current_tool with
  | Except.error e => Except.error e
  | Except.ok ts =>
    let st1 := setToolState st st.current_tool (resetToolState ts now)
    if st1.tools.length = 0 then Except.error "ZeroDivisionError"
    else
      let idx := (st1.current_tool + 1) % st1.tools.length
      match getToolState st1 idx with
      | Except.error e => Except.error e
      | Except.ok ts2 =>
        let st2 := setToolState { st1 with current_tool := idx } idx (resetToolState ts2 now)
        Except.ok ({ st2 with was_changing_tool := true }, [Event.nextItemSound])

/-- Input sampled by one update tick: the clock, the debounced trigger line,
and the oracles for random.choice and for which playbacks are still playing. -/
structure TickInput where
  now : ℚ
  trigger_down : Bool
  rand : ℕ
  playing : ℕ → Bool

/-- App.update lines 288-289: when not sleeping, render the current tool
(which may clear its fade timer and may fail its loaded assertion). -/
def renderStep (cfg : Config) (st : AppState) (now : ℚ) :
    Except String AppState :=
  if st.sleep_mode then Except.ok st
  else
    match getTool st st.current_tool with
    | Except.error e => Except.error e
    | Except.ok t =>
      match getToolState st st.current_tool with
      | Except.error e => Except.error e
      | Except.ok ts =>
        match Tool.render t ts now (titleWidth cfg t) screenWidth cfg.text_scroll_y with
        | Except.error e => Except.error e
        | Except.ok (ts', _) => Except.ok (setToolState st st.current_tool ts')

/-- Main.py lines 294-296: press edge — fire the current tool, start the hold
timer. -/
def pressStep (st : AppState) (inp : TickInput) :
    Except String (AppState × List Event) :=
  match getTool st st.current_tool with
  | Except.error e => Except.error e
  | Except.ok t =>
    match getToolState st st.current_tool with
    | Except.error e => Except.error e
    | Except.ok ts =>
      match Tool.trigger t ts inp.now inp.rand inp.playing with
      | Except.error e => Except.error e
      | Except.ok (ts', ev) =>
        Except.ok ({ setToolState st st.current_tool ts' with
                      trigger_hold := some inp.now }, ev)

/-- Main.py lines 297-301: release edge — `last_trigger, trigger_hold =
trigger_hold, None`; acknowledge a pending tool change with the equip cue. -/
def releaseStep (st : AppState) : AppState × List Event :=
  if st.was_changing_tool then
    ({ st with last_trigger := st.trigger_hold, trigger_hold := none,
               was_changing_tool := false }, [Event.equipItemSound])
  else
    ({ st with last_trigger := st.trigger_hold, trigger_hold := none }, [])

/-- Main.py lines 303-309: after any edge, push the sleep deadline out and
leave sleep mode, restoring the backlight (the raw duty-cycle call is skipped
when simulating). -/
def edgeTail (cfg : Config) (st : AppState) (ev : List Event) (now : ℚ) :
    AppState × List Event :=
  if st.sleep_mode then
    ({ st with sleep_timer := now + cfg.sleep_timeout, sleep_mode := false },
     ev ++ (if cfg.simulate then [] else [Event.setBacklight 100]) ++ [Event.setSleep false])
  else ({ st with sleep_timer := now + cfg.sleep_timeout }, ev)

/-- App.update lines 292-309: an edge on the trigger line — update the stored
trigger state, dispatch to the press or release handler, then the edge tail
(sleep-deadline reset and wake). -/
def edgeStep (cfg : Config) (st : AppState) (inp : TickInput) :
    Except String (AppState × List Event) :=
  match (if inp.trigger_down then
           pressStep { st with button_change := inp.trigger_down } inp
         else
           Except.ok (releaseStep { st with button_change := inp.trigger_down })) with
  | Except.error e => Except.error e
  | Except.ok (st2, ev) => Except.ok (edgeTail cfg st2 ev inp.now)

/-- App.update lines 311-316: the holding-tool branch.  The tool loops; then,
short-circuiting exactly as the Python `and`, a hold-to-switch happens when
`now - last_trigger < 0.5 + tool_change_timeout` and
`now > trigger_hold + tool_change_timeout`, resetting the hold timer to `now`
before advancing to the next tool. -/
def holdStep (cfg : Config) (t : Tool) (st : AppState) (inp : TickInput) :
    Except String (AppState × List Event) :=
  match getToolState st st.current_tool with
  | Except.error e => Except.error e
  | Except.ok ts =>
    match Tool.loop t ts inp.now inp.rand inp.playing with
    | Except.error e => Except.error e
    | Except.ok (ts', evL) =>
      let st1 := setToolState st st.current_tool ts'
      match asNum st1.last_trigger with
      | Except.error e => Except.error e
      | Except.ok lt =>
        if inp.now - lt < 1 / 2 + cfg.tool_change_timeout then
          match asNum st1.trigger_hold with
          | Except.error e => Except.error e
          | Except.ok th =>
            if inp.now > th + cfg.tool_change_timeout then
              match next_tool { st1 with trigger_hold := some inp.now } inp.now with
              | Except.error e => Except.error e
              | Except.ok (st', ev') => Except.ok (st', evL ++ ev')
            else Except.ok (st1, evL)
        else Except.ok (st1, evL)

/-- App.update lines 322-327: once the clock passes the sleep deadline and
sleep mode is not already engaged, engage it and issue the single dim
command. -/
def sleepStep (cfg : Config) (st : AppState) (now : ℚ) : AppState × List Event :=
  if now > st.sleep_timer ∧ st.sleep_mode = false then
    ({ st with sleep_mode := true },
     (if cfg.simulate then [] else [Event.setBacklight 0]) ++ [Event.setSleep true])
  else (st, [])

/-- App.update (main.py lines 286-330): render, interpret the trigger line
(edge / holding-tool branch / plain hold-to-switch branch, mirroring the
Python if/elif chain including where each condition reads state), then the
sleep check.  The trailing hardware.update/screen.update calls only expire
actuator pulses and present the frame — external sinks. -/
def update (cfg : Config) (st : AppState) (inp : TickInput) :
    Except String (AppState × List Event) :=
  match renderStep cfg st inp.now with
  | Except.error e => Except.error e
  | Except.ok st1 =>
    match (if inp.trigger_down ≠ st1.button_change then edgeStep cfg st1 inp
           else if inp.trigger_down then
             match getTool st1 st1.current_tool with
             | Except.error e => Except.error e
             | Except.ok t =>
               if t.hold ∧ st1.was_changing_tool = false then holdStep cfg t st1 inp
               else
                 match st1.trigger_hold with
                 | some th =>
                   if inp.now > th + cfg.tool_change_timeout then
                     next_tool { st1 with trigger_hold := some inp.now } inp.now
                   else Except.ok (st1, ([] : List Event))
                 | none => Except.ok (st1, ([] : List Event))
           else Except.ok (st1, ([] : List Event))) with
    | Except.error e => Except.error e
    | Except.ok (st2, evT) =>
      let s3 := sleepStep cfg st2 inp.now
      Except.ok (s3.1, evT ++ s3.2)

/-- Run a sequence of update ticks, concatenating the emitted events. -/
def runTicks (cfg : Config) : List TickInput → AppState →
    Except String (AppState × List Event)
  | [], st => Except.ok (st, [])
  | inp :: rest, st =>
    match update cfg st inp with
    | Except.error e => Except.error e
    | Except.ok (st', ev) =>
      match runTicks cfg rest st' with
      | Except.error e => Except.error e
      | Except.ok (st'', evs) => Except.ok (st'', ev ++ evs)

/-- Iterate next_tool `n` times, discarding the audio cues. -/
def nextToolIter (now : ℚ) : ℕ → AppState → Except String AppState
  | 0, st => Except.ok st
  | n + 1, st =>
    match next_tool st now with
    | Except.error e => Except.error e
    | Except.ok (st', _) => nextToolIter now n st'

/-- Every tool's content is loaded. -/
def AllLoaded (st : AppState) : Prop := ∀ ts ∈ st.toolStates, ts.loaded = true

/-! Helper lemmas -/

theorem bind_ok_iff {α β : Type} (x : Except String α) (f : α → Except String β) (b : β) :
    (x >>= f) = Except.ok b ↔ ∃ a, x = Except.ok a ∧ f a = Except.ok b := by
  cases x <;> simp [Bind.bind, Except.bind]

theorem getTool_ok {st : AppState} {i : ℕ} {t : Tool}
    (h : getTool st i = Except.ok t) : st.tools.get? i = some t := by
  unfold getTool at h
  cases hg : st.tools.get? i <;> rw [hg] at h <;> simp_all

theorem getToolState_ok {st : AppState} {i : ℕ} {ts : ToolState}
    (h : getToolState st i = Except.ok ts) : st.toolStates.get? i = some ts := by
  unfold getToolState at h
  cases hg : st.toolStates.get? i <;> rw [hg] at h <;> simp_all

theorem getToolState_exists {st : AppState} {i : ℕ} (hi : i < st.toolStates.length) :
    ∃ ts, getToolState st i = Except.ok ts ∧ st.toolStates.get? i = some ts := by
  unfold getToolState
  cases hg : st.toolStates.get? i with
  | none => exact absurd (List.get?_eq_none.mp hg) (by omega)
  | some ts => exact ⟨ts, rfl, rfl⟩

theorem startPlayback_fst (t : Tool) (s : ToolState) (now : ℚ) (idx : ℕ) :
    (startPlayback t s now idx).1.sound_selector = s.sound_selector ∧
    (startPlayback t s now idx).1.loaded = s.loaded ∧
    (startPlayback t s now idx).1.init_timer = s.init_timer := by
  cases h : t.sound_overlap <;> simp [startPlayback, h]

theorem startPlayback_snd (t : Tool) (s : ToolState) (now : ℚ) (idx : ℕ) :
    Event.playSound idx ∈ (startPlayback t s now idx).2 := by
  cases h : t.sound_overlap <;> simp [startPlayback, h]

/-- Events a Tool itself can emit (sound and actuator commands). -/
def toolEvent : Event → Prop
  | Event.playSound _ => True
  | Event.stopPlaybacks => True
  | Event.flashLed => True
  | Event.spinMotor => True
  | _ => False

theorem startPlayback_events (t : Tool) (s : ToolState) (now : ℚ) (idx : ℕ) :
    ∀ e ∈ (startPlayback t s now idx).2, toolEvent e := by
  cases h : t.sound_overlap <;> simp [startPlayback, h, toolEvent]

theorem play_sound_spec {t : Tool} {s s' : ToolState} {now : ℚ} {r : ℕ} {ev : List Event}
    (h : Tool.play_sound t s now r = Except.ok (s', ev)) :
    s'.loaded = s.loaded ∧ ∀ e ∈ ev, toolEvent e := by
  unfold Tool.play_sound at h
  split at h
  · split at h
    · exact absurd h (by simp)
    · simp only [Except.ok.injEq] at h
      have h1 := congrArg Prod.fst h
      have h2 := congrArg Prod.snd h
      simp only at h1 h2
      rw [← h1, ← h2]
      exact ⟨(startPlayback_fst _ _ _ _).2.1, startPlayback_events _ _ _ _⟩
  · split at h
    · split at h
      · exact absurd h (by simp)
      · simp only [Except.ok.injEq] at h
        have h1 := congrArg Prod.fst h
        have h2 := congrArg Prod.snd h
        simp only at h1 h2
        rw [← h1, ← h2]
        exact ⟨(startPlayback_fst _ _ _ _).2.1, startPlayback_events _ _ _ _⟩
    · simp only [Except.ok.injEq, Prod.mk.injEq] at h
      obtain ⟨h1, h2⟩ := h
      subst h1 h2
      simp

theorem descStep_loaded (t : Tool) (s : ToolState) :
    (descStep t s).loaded = s.loaded := by
  unfold descStep
  split <;> rfl

theorem trigger_spec {t : Tool} {s s' : ToolState} {now : ℚ} {r : ℕ}
    {playing : ℕ → Bool} {ev : List Event}
    (h : Tool.trigger t s now r playing = Except.ok (s', ev)) :
    s'.loaded = s.loaded ∧ ∀ e ∈ ev, toolEvent e := by
  unfold Tool.trigger at h
  cases hx : (if t.sounds ≠ [] then Tool.play_sound t (descStep t s) now r
              else Except.ok (descStep t s, ([] : List Event))) with
  | error e => rw [hx] at h; exact absurd h (by simp)
  | ok p =>
    obtain ⟨s2, ev2⟩ := p
    rw [hx] at h
    simp only [Except.ok.injEq, Prod.mk.injEq] at h
    obtain ⟨hs, hev⟩ := h
    have hs2 : s2.loaded = s.loaded ∧ ∀ e ∈ ev2, toolEvent e := by
      split at hx
      · have hps := play_sound_spec hx
        exact ⟨hps.1.trans (descStep_loaded t s), hps.2⟩
      · simp only [Except.ok.injEq, Prod.mk.injEq] at hx
        obtain ⟨h1, h2⟩ := hx
        rw [← h1, ← h2]
        exact ⟨descStep_loaded t s, by simp⟩
    subst hs hev
    refine ⟨hs2.1, ?_⟩
    intro e he
    simp only [List.mem_append] at he
    rcases he with (he | he) | he
    · exact hs2.2 e he
    · split at he <;> simp_all [toolEvent]
    · split at he <;> simp_all [toolEvent]

theorem loop_spec {t : Tool} {s s' : ToolState} {now : ℚ} {r : ℕ}
    {playing : ℕ → Bool} {ev : List Event}
    (h : Tool.loop t s now r playing = Except.ok (s', ev)) :
    s'.loaded = s.loaded ∧ ∀ e ∈ ev, toolEvent e := by
  unfold Tool.loop at h
  cases hx : (if t.sound_replay ≠ 0 ∧ now > s.replay_timer ∧ t.sounds ≠ [] then
                Tool.play_sound t s now r
              else Except.ok (s, ([] : List Event))) with
  | error e => rw [hx] at h; exact absurd h (by simp)
  | ok p =>
    obtain ⟨s2, ev2⟩ := p
    rw [hx] at h
    simp only [Except.ok.injEq, Prod.mk.injEq] at h
    obtain ⟨hs, hev⟩ := h
    have hs2 : s2.loaded = s.loaded ∧ ∀ e ∈ ev2, toolEvent e := by
      split at hx
      · exact play_sound_spec hx
      · simp only [Except.ok.injEq, Prod.mk.injEq] at hx
        obtain ⟨h1, h2⟩ := hx
        rw [← h1, ← h2]
        simp
    subst hs hev
    refine ⟨hs2.1, ?_⟩
    intro e he
    simp only [List.mem_append] at he
    rcases he with (he | he) | he
    · exact hs2.2 e he
    · split at he <;> simp_all [toolEvent]
    · split at he <;> simp_all [toolEvent]

theorem render_loaded {t : Tool} {s s' : ToolState} {now : ℚ} {w sw : ℕ} {textY : ℤ}
    {out : RenderOut} (h : Tool.render t s now w sw textY = Except.ok (s', out)) :
    s'.loaded = s.loaded := by
  unfold Tool.render at h
  split at h
  · exact absurd h (by simp)
  split at h
  · exact absurd h (by simp)
  simp only [Except.ok.injEq, Prod.mk.injEq] at h
  obtain ⟨h1, -⟩ := h
  rw [← h1]
  cases hi : s.init_timer with
  | none => simp only [hi]
  | some t0 =>
    simp only [hi]
    split <;> rfl

theorem count_zero_of_toolEvents {a : Event} {ev : List Event}
    (h : ∀ e ∈ ev, toolEvent e) (ha : ¬ toolEvent a) : ev.count a = 0 := by
  rw [List.count_eq_zero]
  intro hm
  exact ha (h a hm)

theorem AllLoaded_set {st : AppState} {i : ℕ} {ts : ToolState}
    (h : AllLoaded st) (hts : ts.loaded = true) : AllLoaded (setToolState st i ts) := by
  intro x hx
  simp only [setToolState] at hx
  rcases List.mem_or_eq_of_mem_set hx with hx' | rfl
  · exact h x hx'
  · exact hts

theorem AllLoaded_get {st : AppState} {i : ℕ} {ts : ToolState}
    (h : AllLoaded st) (hg : st.toolStates.get? i = some ts) : ts.loaded = true :=
  h ts (List.get?_mem hg)

theorem renderStep_spec {cfg : Config} {st st1 : AppState} {now : ℚ}
    (h : renderStep cfg st now = Except.ok st1) :
    st1.button_change = st.button_change ∧ st1.current_tool = st.current_tool ∧
    st1.trigger_hold = st.trigger_hold ∧ st1.was_changing_tool = st.was_changing_tool ∧
    st1.last_trigger = st.last_trigger ∧ st1.sleep_mode = st.sleep_mode ∧
    st1.sleep_timer = st.sleep_timer ∧ st1.tools = st.tools ∧
    st1.toolStates.length = st.toolStates.length ∧ (AllLoaded st → AllLoaded st1) := by
  unfold renderStep at h
  split at h
  · simp only [Except.ok.injEq] at h
    subst h
    simp
  split at h
  · exact absurd h (by simp)
  split at h
  · exact absurd h (by simp)
  rename_i ts hts
  split at h
  · exact absurd h (by simp)
  rename_i ts' o hr
  simp only [Except.ok.injEq] at h
  subst h
  refine ⟨rfl, rfl, rfl, rfl, rfl, rfl, rfl, rfl, by simp [setToolState], ?_⟩
  intro hall
  exact AllLoaded_set hall ((render_loaded hr).trans (AllLoaded_get hall (getToolState_ok hts)))

theorem sleepStep_spec (cfg : Config) (st : AppState) (now : ℚ) :
    ((sleepStep cfg st now).1.button_change = st.button_change ∧
     (sleepStep cfg st now).1.current_tool = st.current_tool ∧
     (sleepStep cfg st now).1.trigger_hold = st.trigger_hold ∧
     (sleepStep cfg st now).1.was_changing_tool = st.was_changing_tool ∧
     (sleepStep cfg st now).1.last_trigger = st.last_trigger ∧
     (sleepStep cfg st now).1.sleep_timer = st.sleep_timer ∧
     (sleepStep cfg st now).1.tools = st.tools ∧
     (sleepStep cfg st now).1.toolStates = st.toolStates) ∧
    ((sleepStep cfg st now).2.count (Event.setSleep true)
      = if now > st.sleep_timer ∧ st.sleep_mode = false then 1 else 0) ∧
    Event.nextItemSound ∉ (sleepStep cfg st now).2 := by
  unfold sleepStep
  split
  · cases hs : cfg.simulate <;> simp [hs]
  · simp_all

theorem pressStep_spec {st st2 : AppState} {inp : TickInput} {ev : List Event}
    (h : pressStep st inp = Except.ok (st2, ev)) :
    st2.button_change = st.button_change ∧ st2.current_tool = st.current_tool ∧
    st2.trigger_hold = some inp.now ∧ st2.was_changing_tool = st.was_changing_tool ∧
    st2.last_trigger = st.last_trigger ∧ st2.sleep_mode = st.sleep_mode ∧
    st2.sleep_timer = st.sleep_timer ∧ st2.tools = st.tools ∧
    st2.toolStates.length = st.toolStates.length ∧ (AllLoaded st → AllLoaded st2) ∧
    ∀ e ∈ ev, toolEvent e := by
  unfold pressStep at h
  split at h
  · exact absurd h (by simp)
  split at h
  · exact absurd h (by simp)
  rename_i ts hts
  split at h
  · exact absurd h (by simp)
  rename_i ts' evt htr
  simp only [Except.ok.injEq, Prod.mk.injEq] at h
  obtain ⟨hst, hev⟩ := h
  subst hst hev
  refine ⟨rfl, rfl, rfl, rfl, rfl, rfl, rfl, rfl, by simp [setToolState], ?_, (trigger_spec htr).2⟩
  intro hall
  exact AllLoaded_set hall (((trigger_spec htr).1).trans (AllLoaded_get hall (getToolState_ok hts)))

theorem releaseStep_spec (st : AppState) :
    (releaseStep st).1.button_change = st.button_change ∧
    (releaseStep st).1.current_tool = st.current_tool ∧
    (releaseStep st).1.trigger_hold = none ∧
    (releaseStep st).1.last_trigger = st.trigger_hold ∧
    (releaseStep st).1.sleep_mode = st.sleep_mode ∧
    (releaseStep st).1.sleep_timer = st.sleep_timer ∧
    (releaseStep st).1.tools = st.tools ∧
    (releaseStep st).1.toolStates = st.toolStates ∧
    ∀ e ∈ (releaseStep st).2, e = Event.equipItemSound := by
  unfold releaseStep
  split <;> simp

theorem edgeTail_spec (cfg : Config) (st : AppState) (ev : List Event) (now : ℚ) :
    (edgeTail cfg st ev now).1.button_change = st.button_change ∧
    (edgeTail cfg st ev now).1.current_tool = st.current_tool ∧
    (edgeTail cfg st ev now).1.trigger_hold = st.trigger_hold ∧
    (edgeTail cfg st ev now).1.was_changing_tool = st.was_changing_tool ∧
    (edgeTail cfg st ev now).1.last_trigger = st.last_trigger ∧
    (edgeTail cfg st ev now).1.sleep_mode = false ∧
    (edgeTail cfg st ev now).1.sleep_timer = now + cfg.sleep_timeout ∧
    (edgeTail cfg st ev now).1.tools = st.tools ∧
    (edgeTail cfg st ev now).1.toolStates = st.toolStates ∧
    ∀ e ∈ (edgeTail cfg st ev now).2,
      e ∈ ev ∨ e = Event.setBacklight 100 ∨ e = Event.setSleep false := by
  unfold edgeTail
  split
  · cases hs : cfg.simulate <;> (simp [hs]; try tauto)
  · simp_all

theorem edgeStep_spec {cfg : Config} {st st2 : AppState} {inp : TickInput}
    {ev : List Event} (h : edgeStep cfg st inp = Except.ok (st2, ev)) :
    st2.button_change = inp.trigger_down ∧ st2.current_tool = st.current_tool ∧
    st2.sleep_mode = false ∧ st2.sleep_timer = inp.now + cfg.sleep_timeout ∧
    st2.tools = st.tools ∧ st2.toolStates.length = st.toolStates.length ∧
    (AllLoaded st → AllLoaded st2) ∧
    (inp.trigger_down = true →
      st2.trigger_hold = some inp.now ∧ st2.last_trigger = st.last_trigger) ∧
    (inp.trigger_down = false →
      st2.trigger_hold = none ∧ st2.last_trigger = st.trigger_hold) ∧
    Event.nextItemSound ∉ ev ∧ Event.setSleep true ∉ ev := by
  unfold edgeStep at h
  split at h
  · exact absurd h (by simp)
  rename_i p stm evm heq
  injection h with hpair
  have h1 := congrArg Prod.fst hpair
  have h2 := congrArg Prod.snd hpair
  simp only at h1 h2
  obtain ⟨t1, t2, t3, t4, t5, t6, t7, t8, t9, t10⟩ := edgeTail_spec cfg stm evm inp.now
  rw [h1] at t1 t2 t3 t4 t5 t6 t7 t8 t9
  rw [h2] at t10
  cases hd : inp.trigger_down with
  | true =>
    rw [hd] at heq
    rw [if_pos rfl] at heq
    obtain ⟨p1, p2, p3, p4, p5, p6, p7, p8, p9, p10, p11⟩ := pressStep_spec heq
    refine ⟨t1.trans p1, t2.trans p2, t6, t7, t8.trans p8, ?_, ?_, ?_, ?_, ?_, ?_⟩
    · rw [congrArg List.length t9]
      exact p9
    · intro hall
      have := p10 (fun x hx => hall x hx)
      intro x hx
      rw [t9] at hx
      exact this x hx
    · intro _
      exact ⟨t3.trans p3, t5.trans p5⟩
    · intro hfalse
      simp at hfalse
    · intro hm
      rcases t10 _ hm with hm' | hm' | hm'
      · exact absurd (p11 _ hm') (by simp [toolEvent])
      · simp at hm'
      · simp at hm'
    · intro hm
      rcases t10 _ hm with hm' | hm' | hm'
      · exact absurd (p11 _ hm') (by simp [toolEvent])
      · simp at hm'
      · simp at hm'
  | false =>
    rw [hd] at heq
    rw [if_neg (by simp)] at heq
    injection heq with hrel
    obtain ⟨r1, r2, r3, r4, r5, r6, r7, r8, r9⟩ :=
      releaseStep_spec { st with button_change := false }
    rw [hrel] at r1 r2 r3 r4 r5 r6 r7 r8 r9
    simp only at r1 r2 r3 r4 r5 r6 r7 r8 r9
    refine ⟨t1.trans r1, t2.trans r2, t6, t7, t8.trans r7, ?_, ?_, ?_, ?_, ?_, ?_⟩
    · rw [congrArg List.length t9, congrArg List.length r8]
    · intro hall
      intro x hx
      rw [t9, r8] at hx
      exact hall x hx
    · intro htrue
      simp at htrue
    · intro _
      exact ⟨t3.trans r3, t5.trans r4⟩
    · intro hm
      rcases t10 _ hm with hm' | hm' | hm'
      · exact absurd (r9 _ hm') (by simp)
      · simp at hm'
      · simp at hm'
    · intro hm
      rcases t10 _ hm with hm' | hm' | hm'
      · exact absurd (r9 _ hm') (by simp)
      · simp at hm'
      · simp at hm'

theorem next_tool_spec {st st' : AppState} {now : ℚ} {ev : List Event}
    (h : next_tool st now = Except.ok (st', ev)) :
    ev = [Event.nextItemSound] ∧
    st'.current_tool = (st.current_tool + 1) % st.tools.length ∧
    st'.tools = st.tools ∧ st'.button_change = st.button_change ∧
    st'.trigger_hold = st.trigger_hold ∧ st'.was_changing_tool = true ∧
    st'.last_trigger = st.last_trigger ∧ st'.sleep_mode = st.sleep_mode ∧
    st'.sleep_timer = st.sleep_timer ∧
    st'.toolStates.length = st.toolStates.length ∧
    (AllLoaded st → AllLoaded st') := by
  unfold next_tool at h
  split at h
  · exact absurd h (by simp)
  rename_i ts hts
  simp only [] at h
  split at h
  · exact absurd h (by simp)
  split at h
  · exact absurd h (by simp)
  rename_i ts2 hts2
  simp only [Except.ok.injEq, Prod.mk.injEq] at h
  obtain ⟨hst, hev⟩ := h
  subst hst hev
  refine ⟨rfl, by simp [setToolState], by simp [setToolState], by simp [setToolState],
    by simp [setToolState], rfl, by simp [setToolState], by simp [setToolState],
    by simp [setToolState], by simp [setToolState], ?_⟩
  intro hall
  have hl1 : ts.loaded = true := AllLoaded_get hall (getToolState_ok hts)
  have h1 : AllLoaded (setToolState st st.current_tool (resetToolState ts now)) :=
    AllLoaded_set hall hl1
  have hl2 : ts2.loaded = true := AllLoaded_get h1 (getToolState_ok hts2)
  exact AllLoaded_set h1 hl2

theorem next_tool_total (st : AppState) (now : ℚ)
    (hlen : st.toolStates.length = st.tools.length)
    (hc : st.current_tool < st.tools.length) :
    ∃ r, next_tool st now = Except.ok r := by
  unfold next_tool
  obtain ⟨ts, hts, -⟩ := @getToolState_exists st st.current_tool (by omega)
  rw [hts]
  simp only []
  rw [if_neg (by simp only [setToolState]; omega)]
  have hidx : ((setToolState st st.current_tool (resetToolState ts now)).current_tool + 1)
      % (setToolState st st.current_tool (resetToolState ts now)).tools.length
      < (setToolState st st.current_tool (resetToolState ts now)).toolStates.length := by
    simp only [setToolState, List.length_set]
    rw [hlen]
    exact Nat.mod_lt _ (by omega)
  obtain ⟨ts2, hts2, -⟩ := getToolState_exists hidx
  rw [hts2]
  exact ⟨_, rfl⟩

theorem holdStep_spec {cfg : Config} {t : Tool} {st st2 : AppState} {inp : TickInput}
    {ev : List Event} (h : holdStep cfg t st inp = Except.ok (st2, ev)) :
    st2.button_change = st.button_change ∧ st2.sleep_mode = st.sleep_mode ∧
    st2.sleep_timer = st.sleep_timer ∧ st2.tools = st.tools ∧
    st2.toolStates.length = st.toolStates.length ∧ (AllLoaded st → AllLoaded st2) ∧
    ev.count Event.nextItemSound ≤ 1 ∧ Event.setSleep true ∉ ev ∧
    (st2.current_tool = st.current_tool ∨
      st2.current_tool = (st.current_tool + 1) % st.tools.length) ∧
    (Event.nextItemSound ∈ ev →
      st2.trigger_hold = some inp.now ∧ st2.was_changing_tool = true ∧
      ∃ lt th, st.last_trigger = some lt ∧ st.trigger_hold = some th ∧
        inp.now - lt < 1 / 2 + cfg.tool_change_timeout ∧
        inp.now > th + cfg.tool_change_timeout) ∧
    (Event.nextItemSound ∉ ev →
      st2.current_tool = st.current_tool ∧ st2.trigger_hold = st.trigger_hold ∧
      st2.was_changing_tool = st.was_changing_tool ∧
      st2.last_trigger = st.last_trigger) := by
  unfold holdStep at h
  split at h
  · exact absurd h (by simp)
  rename_i ts hts
  split at h
  · exact absurd h (by simp)
  rename_i ts' evL hloop
  simp only [] at h
  split at h
  · exact absurd h (by simp)
  rename_i lt hlt
  have hLev : ∀ e ∈ evL, toolEvent e := (loop_spec hloop).2
  have hLcnt : Event.nextItemSound ∉ evL := by
    intro hm
    exact absurd (hLev _ hm) (by simp [toolEvent])
  have hLload : AllLoaded st → AllLoaded (setToolState st st.current_tool ts') := by
    intro hall
    exact AllLoaded_set hall (((loop_spec hloop).1).trans (AllLoaded_get hall (getToolState_ok hts)))
  have hlt' : st.last_trigger = some lt := by
    revert hlt
    unfold asNum
    cases hv : (setToolState st st.current_tool ts').last_trigger with
    | none => intro hk; exact absurd hk (by simp)
    | some v =>
      intro hk
      simp only [Except.ok.injEq] at hk
      subst hk
      simpa [setToolState] using hv
  split at h
  · -- within the tap window
    split at h
    · exact absurd h (by simp)
    rename_i th hth
    have hth' : st.trigger_hold = some th := by
      revert hth
      unfold asNum
      cases hv : (setToolState st st.current_tool ts').trigger_hold with
      | none => intro hk; exact absurd hk (by simp)
      | some v =>
        intro hk
        simp only [Except.ok.injEq] at hk
        subst hk
        simpa [setToolState] using hv
    split at h
    · -- hold exceeded the timeout: switch
      split at h
      · exact absurd h (by simp)
      rename_i stN evN hnext
      simp only [Except.ok.injEq, Prod.mk.injEq] at h
      obtain ⟨hst, hev⟩ := h
      subst hst hev
      obtain ⟨n1, n2, n3, n4, n5, n6, n7, n8, n9, n10, n11⟩ := next_tool_spec hnext
      subst n1
      refine ⟨?_, ?_, ?_, ?_, ?_, ?_, ?_, ?_, ?_, ?_, ?_⟩
      · exact n4.trans (by simp [setToolState])
      · exact n8.trans (by simp [setToolState])
      · exact n9.trans (by simp [setToolState])
      · exact n3.trans (by simp [setToolState])
      · rw [n10]
        simp [setToolState]
      · intro hall
        have := n11 (hLload hall)
        exact this
      · rw [List.count_append]
        rw [List.count_eq_zero.mpr hLcnt]
        simp
      · intro hm
        rw [List.mem_append] at hm
        rcases hm with hm | hm
        · exact absurd (hLev _ hm) (by simp [toolEvent])
        · simp at hm
      · right
        rw [n2]
        simp [setToolState]
      · intro _
        refine ⟨n5.trans (by simp [setToolState]), n6, lt, th, hlt', hth', by assumption, by assumption⟩
      · intro hm
        exact absurd (by simp : Event.nextItemSound ∈ evL ++ [Event.nextItemSound]) hm
    · -- timeout not yet passed: no switch
      simp only [Except.ok.injEq, Prod.mk.injEq] at h
      obtain ⟨hst, hev⟩ := h
      subst hst hev
      refine ⟨by simp [setToolState], by simp [setToolState], by simp [setToolState],
        by simp [setToolState], by simp [setToolState], hLload, ?_, ?_, ?_, ?_, ?_⟩
      · rw [List.count_eq_zero.mpr hLcnt]
        exact Nat.zero_le _
      · intro hm
        exact absurd (hLev _ hm) (by simp [toolEvent])
      · left
        simp [setToolState]
      · intro hm
        exact absurd hm hLcnt
      · intro _
        refine ⟨by simp [setToolState], by simp [setToolState], by simp [setToolState],
          by simp [setToolState]⟩
  · -- too long since the last trigger: no switch
    simp only [Except.ok.injEq, Prod.mk.injEq] at h
    obtain ⟨hst, hev⟩ := h
    subst hst hev
    refine ⟨by simp [setToolState], by simp [setToolState], by simp [setToolState],
      by simp [setToolState], by simp [setToolState], hLload, ?_, ?_, ?_, ?_, ?_⟩
    · rw [List.count_eq_zero.mpr hLcnt]
      exact Nat.zero_le _
    · intro hm
      exact absurd (hLev _ hm) (by simp [toolEvent])
    · left
      simp [setToolState]
    · intro hm
      exact absurd hm hLcnt
    · intro _
      refine ⟨by simp [setToolState], by simp [setToolState], by simp [setToolState],
        by simp [setToolState]⟩

theorem update_cases {cfg : Config} {st st' : AppState} {inp : TickInput} {ev : List Event}
    (h : update cfg st inp = Except.ok (st', ev)) :
    ∃ st1 st2 evT,
      renderStep cfg st inp.now = Except.ok st1 ∧
      st' = (sleepStep cfg st2 inp.now).1 ∧
      ev = evT ++ (sleepStep cfg st2 inp.now).2 ∧
      ((inp.trigger_down ≠ st1.button_change ∧ edgeStep cfg st1 inp = Except.ok (st2, evT)) ∨
       (inp.trigger_down = st1.button_change ∧ inp.trigger_down = true ∧
         ∃ t, getTool st1 st1.current_tool = Except.ok t ∧
           ((t.hold = true ∧ st1.was_changing_tool = false ∧
              holdStep cfg t st1 inp = Except.ok (st2, evT)) ∨
            (¬ (t.hold = true ∧ st1.was_changing_tool = false) ∧
              ((∃ th, st1.trigger_hold = some th ∧ inp.now > th + cfg.tool_change_timeout ∧
                 next_tool { st1 with trigger_hold := some inp.now } inp.now
                   = Except.ok (st2, evT)) ∨
               ((∀ th, st1.trigger_hold = some th →
                    ¬ inp.now > th + cfg.tool_change_timeout) ∧
                 st2 = st1 ∧ evT = []))))) ∨
       (inp.trigger_down = st1.button_change ∧ inp.trigger_down = false ∧
         st2 = st1 ∧ evT = [])) := by
  unfold update at h
  split at h
  · exact absurd h (by simp)
  rename_i st1 hr
  split at h
  · exact absurd h (by simp)
  rename_i p st2 evT heq
  simp only [] at h
  simp only [Except.ok.injEq, Prod.mk.injEq] at h
  obtain ⟨hst, hev⟩ := h
  refine ⟨st1, st2, evT, hr, hst.symm, hev.symm, ?_⟩
  by_cases hedge : inp.trigger_down ≠ st1.button_change
  · rw [if_pos hedge] at heq
    exact Or.inl ⟨hedge, heq⟩
  rw [if_neg hedge] at heq
  push_neg at hedge
  cases hd : inp.trigger_down with
  | false =>
    rw [hd] at heq
    rw [if_neg (by simp)] at heq
    simp only [Except.ok.injEq, Prod.mk.injEq] at heq
    exact Or.inr (Or.inr ⟨by rw [← hedge, hd], rfl, heq.1.symm, heq.2.symm⟩)
  | true =>
    rw [hd] at heq
    rw [if_pos rfl] at heq
    split at heq
    · exact absurd heq (by simp)
    rename_i t ht
    refine Or.inr (Or.inl ⟨by rw [← hedge, hd], rfl, t, ht, ?_⟩)
    by_cases hh : t.hold = true ∧ st1.was_changing_tool = false
    · rw [if_pos hh] at heq
      exact Or.inl ⟨hh.1, hh.2, heq⟩
    rw [if_neg hh] at heq
    refine Or.inr ⟨hh, ?_⟩
    split at heq
    · rename_i th hth
      split at heq
      · rename_i hgt
        exact Or.inl ⟨th, hth, hgt, heq⟩
      · rename_i hgt
        simp only [Except.ok.injEq, Prod.mk.injEq] at heq
        refine Or.inr ⟨?_, heq.1.symm, heq.2.symm⟩
        intro th' hth'
        rw [hth] at hth'
        injection hth' with he
        subst he
        exact hgt
    · rename_i hth
      simp only [Except.ok.injEq, Prod.mk.injEq] at heq
      refine Or.inr ⟨?_, heq.1.symm, heq.2.symm⟩
      intro th' hth'
      rw [hth] at hth'
      exact absurd hth' (by simp)

theorem update_spec {cfg : Config} {st st' : AppState} {inp : TickInput} {ev : List Event}
    (h : update cfg st inp = Except.ok (st', ev)) :
    st'.tools = st.tools ∧ st'.toolStates.length = st.toolStates.length ∧
    (AllLoaded st → AllLoaded st') ∧
    (st'.current_tool = st.current_tool ∨
     st'.current_tool = (st.current_tool + 1) % st.tools.length) := by
  obtain ⟨st1, st2, evT, hr, hst, hev, hbr⟩ := update_cases h
  obtain ⟨r1, r2, r3, r4, r5, r6, r7, r8, r9, r10⟩ := renderStep_spec hr
  obtain ⟨⟨s1, s2, s3, s4, s5, s6, s7, s8⟩, -, -⟩ := sleepStep_spec cfg st2 inp.now
  subst hst
  have hmain : st2.tools = st.tools ∧ st2.toolStates.length = st.toolStates.length ∧
      (AllLoaded st → AllLoaded st2) ∧
      (st2.current_tool = st.current_tool ∨
       st2.current_tool = (st.current_tool + 1) % st.tools.length) := by
    rcases hbr with ⟨-, hes⟩ | ⟨-, -, t, ht, hcase⟩ | ⟨-, -, hid, -⟩
    · obtain ⟨e1, e2, e3, e4, e5, e6, e7, e8, e9, e10, e11⟩ := edgeStep_spec hes
      exact ⟨e5.trans r8, e6.trans r9, fun hall => e7 (r10 hall), Or.inl (e2.trans r2)⟩
    · rcases hcase with ⟨-, -, hhs⟩ | ⟨-, hnc⟩
      · obtain ⟨h1, h2, h3, h4, h5, h6, h7, h8, h9, h10, h11⟩ := holdStep_spec hhs
        refine ⟨h4.trans r8, h5.trans r9, fun hall => h6 (r10 hall), ?_⟩
        rcases h9 with h9 | h9
        · exact Or.inl (h9.trans r2)
        · right
          rw [h9]
          rw [r2, r8]
      · rcases hnc with ⟨th, hth, hgt, hnt⟩ | ⟨-, hid, hevT⟩
        · obtain ⟨n1, n2, n3, n4, n5, n6, n7, n8, n9, n10, n11⟩ := next_tool_spec hnt
          refine ⟨n3.trans r8, n10.trans r9, fun hall => n11 (r10 hall), ?_⟩
          right
          rw [n2]
          show (st1.current_tool + 1) % st1.tools.length
            = (st.current_tool + 1) % st.tools.length
          rw [r2, r8]
        · subst hid
          exact ⟨r8, r9, r10, Or.inl r2⟩
    · subst hid
      exact ⟨r8, r9, r10, Or.inl r2⟩
  refine ⟨s7.trans hmain.1, ?_, ?_, ?_⟩
  · rw [congrArg List.length s8]
    exact hmain.2.1
  · intro hall
    intro x hx
    rw [s8] at hx
    exact hmain.2.2.1 hall x hx
  · rcases hmain.2.2.2 with hc | hc
    · exact Or.inl (s2.trans hc)
    · exact Or.inr (s2.trans hc)

/-! C10 -/

/-- C10: a tool built from a config dict with every optional key omitted gets
hold = false, sounds = [], sound_order = "random", sound_replay = 0,
sound_overlap = true, descriptions = [], light = true, motor = true, and
background = the application default; and with light and motor defaulted on,
every trigger press emits both the flash-light and the spin-motor pulse. -/
theorem claim_C10 (nm bg : String) (s : ToolState) (now : ℚ) (r : ℕ)
    (playing : ℕ → Bool) :
    (mkTool bg ⟨nm, none, none, none, none, none, none, none, none, none⟩).hold = false ∧
    (mkTool bg ⟨nm, none, none, none, none, none, none, none, none, none⟩).sounds = [] ∧
    (mkTool bg ⟨nm, none, none, none, none, none, none, none, none, none⟩).sound_order = "random" ∧
    (mkTool bg ⟨nm, none, none, none, none, none, none, none, none, none⟩).sound_replay = 0 ∧
    (mkTool bg ⟨nm, none, none, none, none, none, none, none, none, none⟩).sound_overlap = true ∧
    (mkTool bg ⟨nm, none, none, none, none, none, none, none, none, none⟩).descriptions = [] ∧
    (mkTool bg ⟨nm, none, none, none, none, none, none, none, none, none⟩).light_up = true ∧
    (mkTool bg ⟨nm, none, none, none, none, none, none, none, none, none⟩).motor_spin = true ∧
    (mkTool bg ⟨nm, none, none, none, none, none, none, none, none, none⟩).background = bg ∧
    Tool.trigger (mkTool bg ⟨nm, none, none, none, none, none, none, none, none, none⟩)
        s now r playing
      = Except.ok (managePlaybacks s playing, [Event.flashLed, Event.spinMotor]) := by
  refine ⟨rfl, rfl, rfl, rfl, rfl, rfl, rfl, rfl, rfl, ?_⟩
  simp [Tool.trigger, mkTool, descStep]

/-! C1 -/

/-- C1 counterexample: the order string "sequential" is not what
Tool._play_sound recognises (the code tests for "selective", main.py line
116).  On a tool with soundOrder = "sequential" and two sounds, starting from
sound index 0, the call leaves the index at 0 and starts no playback, while
the claim requires the index to advance to (0+1) mod 2 = 1 and a playback to
start. -/
theorem claim_C1_counterexample :
    Tool.play_sound ⟨"shrink", false, ["a.wav", "b.wav"], "sequential", 0, true, [], "bg", true, true⟩
        ⟨0, 0, none, 0, [], true⟩ 0 0
      = Except.ok (⟨0, 0, none, 0, [], true⟩, []) ∧
    (0 : ℕ) ≠ (0 + 1) % 2 := by
  exact ⟨rfl, by decide⟩

/-- C1 amended: the recognised sequential-selection value is "selective", not
"sequential".  For every tool whose soundOrder is "selective" and whose sound
list is non-empty, Tool._play_sound advances the sequential index to
(index+1) mod len(sounds) and starts playback of the sound at that index; a
tool whose soundOrder is the unrecognised string "sequential" selects no
sound and the call is a no-op (sound list empty or not). -/
theorem claim_C1_amended (t t2 : Tool) (s : ToolState) (now : ℚ) (r : ℕ)
    (hsel : t.sound_order = "selective") (hne : t.sounds ≠ [])
    (hseq : t2.sound_order = "sequential") :
    (∃ s' ev, Tool.play_sound t s now r = Except.ok (s', ev) ∧
      s'.sound_selector = (s.sound_selector + 1) % t.sounds.length ∧
      Event.playSound ((s.sound_selector + 1) % t.sounds.length) ∈ ev) ∧
    Tool.play_sound t2 s now r = Except.ok (s, []) := by
  have hlen : ¬ (t.sounds.length = 0) := by simpa using hne
  constructor
  · unfold Tool.play_sound
    rw [hsel, if_pos rfl, if_neg hlen]
    refine ⟨_, _, rfl, ?_, ?_⟩
    · exact (startPlayback_fst t _ now _).1
    · exact startPlayback_snd t _ now _
  · unfold Tool.play_sound
    rw [hseq]
    simp

theorem claim_C1_witness :
    ((⟨"laser", false, ["a.wav", "b.wav", "c.wav"], "selective", 0, true, [], "bg", true, true⟩ : Tool).sound_order
        = "selective") ∧
    ((⟨"laser", false, ["a.wav", "b.wav", "c.wav"], "selective", 0, true, [], "bg", true, true⟩ : Tool).sounds ≠ []) ∧
    (∃ s' ev,
      Tool.play_sound ⟨"laser", false, ["a.wav", "b.wav", "c.wav"], "selective", 0, true, [], "bg", true, true⟩
          ⟨0, 0, none, 0, [], true⟩ 5 0
        = Except.ok (s', ev) ∧
      s'.sound_selector = (0 + 1) % 3 ∧ Event.playSound ((0 + 1) % 3) ∈ ev) := by
  refine ⟨rfl, by decide, ?_⟩
  exact (claim_C1_amended
    ⟨"laser", false, ["a.wav", "b.wav", "c.wav"], "selective", 0, true, [], "bg", true, true⟩
    ⟨"old", false, [], "sequential", 0, true, [], "bg", true, true⟩
    ⟨0, 0, none, 0, [], true⟩ 5 0 rfl (by decide) rfl).1

/-! C7 -/

/-- C7: in Tool.render, for a title cache of width `w` and a screen of width
`sw`, with scroll position `x = sw - floor((now*160) mod (w + sw/2))`, the
ghost copy of the title is pasted at `x - w - sw/2` if and only if
`x - w - sw/2 + w > 0`, i.e. if and only if `x > sw/2`. -/
theorem claim_C7 (t : Tool) (s s' : ToolState) (now : ℚ) (w sw : ℕ)
    (textY : ℤ) (out : RenderOut)
    (hok : Tool.render t s now w sw textY = Except.ok (s', out)) :
    (out.ghostPos = some (xScroll now w sw - (w : ℤ) - ((sw / 2 : ℕ) : ℤ), textY)) ↔
      xScroll now w sw > ((sw / 2 : ℕ) : ℤ) := by
  unfold Tool.render at hok
  by_cases hl : s.loaded = false
  · rw [if_pos hl] at hok
    exact absurd hok (by simp)
  rw [if_neg hl] at hok
  by_cases hz : w + sw / 2 = 0
  · rw [if_pos hz] at hok
    exact absurd hok (by simp)
  rw [if_neg hz] at hok
  simp only [Except.ok.injEq, Prod.mk.injEq] at hok
  obtain ⟨-, hout⟩ := hok
  subst hout
  by_cases hg : xScroll now w sw - (w : ℤ) - ((sw / 2 : ℕ) : ℤ) + (w : ℤ) > 0
  · simp only [if_pos hg]
    constructor
    · intro _
      omega
    · intro _
      trivial
  · simp only [if_neg hg]
    constructor
    · intro h
      exact absurd h (by simp)
    · intro h
      omega

theorem claim_C7_witness :
    ((⟨(240, 40), some (70, 40), none, false⟩ : RenderOut).ghostPos
        = some (xScroll 0 50 240 - (50 : ℤ) - ((240 / 2 : ℕ) : ℤ), 40)) ↔
      xScroll 0 50 240 > ((240 / 2 : ℕ) : ℤ) :=
  claim_C7 ⟨"t", false, [], "random", 0, true, [], "bg", true, true⟩
    ⟨0, 0, none, 0, [], true⟩ ⟨0, 0, none, 0, [], true⟩ 0 50 240 40
    ⟨(240, 40), some (70, 40), none, false⟩ (by norm_num [Tool.render, xScroll, pyMod])

/-! C8 -/

/-- C8: while the fade timestamp is set the title blend factor equals
min((now - fadeStart)/0.5, 1); it is monotone non-decreasing in the clock,
saturates at exactly 1 when the elapsed time reaches 0.5 s (and stays 1
beyond); and on any render with now > fadeStart + 0.5 the fade timestamp is
cleared, so a render whose fade timestamp is absent blends nothing and uses
the steady-colour cache directly. -/
theorem claim_C8 (t : Tool) (s : ToolState) (t0 now now2 : ℚ) (w sw : ℕ)
    (textY : ℤ) (hle : now ≤ now2) :
    blendFactor now t0 ≤ blendFactor now2 t0 ∧
    blendFactor (t0 + yellowFadeTime) t0 = 1 ∧
    (t0 + yellowFadeTime ≤ now → blendFactor now t0 = 1) ∧
    (∀ s' out, s.init_timer = some t0 →
      Tool.render t s now w sw textY = Except.ok (s', out) →
      out.blend = some (blendFactor now t0) ∧
      (now > t0 + yellowFadeTime → s'.init_timer = none)) ∧
    (∀ s2 s' out, s2.init_timer = none →
      Tool.render t s2 now w sw textY = Except.ok (s', out) →
      out.blend = none ∧ s'.init_timer = none) := by
  have hc : (0 : ℚ) < yellowFadeTime := by norm_num [yellowFadeTime]
  have h2 : ∀ a : ℚ, a / yellowFadeTime = a * 2 := by
    intro a
    rw [yellowFadeTime]
    ring
  refine ⟨?_, ?_, ?_, ?_, ?_⟩
  · unfold blendFactor
    rw [h2, h2]
    exact min_le_min (by linarith) le_rfl
  · unfold blendFactor
    rw [add_sub_cancel_left, div_self (ne_of_gt hc)]
    simp
  · intro h
    unfold blendFactor
    rw [h2, min_eq_right]
    rw [yellowFadeTime] at h
    linarith
  · intro s' out hinit hok
    unfold Tool.render at hok
    by_cases hl : s.loaded = false
    · rw [if_pos hl] at hok
      exact absurd hok (by simp)
    rw [if_neg hl] at hok
    by_cases hz : w + sw / 2 = 0
    · rw [if_pos hz] at hok
      exact absurd hok (by simp)
    rw [if_neg hz] at hok
    rw [hinit] at hok
    simp only [Except.ok.injEq, Prod.mk.injEq] at hok
    obtain ⟨hs', hout⟩ := hok
    subst hout
    refine ⟨rfl, ?_⟩
    intro hgt
    rw [← hs', if_pos hgt]
  · intro s2 s' out hinit hok
    unfold Tool.render at hok
    by_cases hl : s2.loaded = false
    · rw [if_pos hl] at hok
      exact absurd hok (by simp)
    rw [if_neg hl] at hok
    by_cases hz : w + sw / 2 = 0
    · rw [if_pos hz] at hok
      exact absurd hok (by simp)
    rw [if_neg hz] at hok
    rw [hinit] at hok
    simp only [Except.ok.injEq, Prod.mk.injEq] at hok
    obtain ⟨hs', hout⟩ := hok
    subst hout
    exact ⟨rfl, by rw [← hs', hinit]⟩

theorem claim_C8_witness :
    (1 : ℚ) ≤ 2 ∧ blendFactor 1 0 ≤ blendFactor 2 0 ∧
    blendFactor (0 + yellowFadeTime) 0 = 1 := by
  have h := claim_C8 ⟨"t", false, [], "random", 0, true, [], "bg", true, true⟩
    ⟨0, 0, some 0, 0, [], true⟩ 0 1 2 50 240 40 (by norm_num)
  exact ⟨by norm_num, h.1, h.2.1⟩

/-! C2 -/

/-- C2 counterexample: a release edge at time 2 of a trigger pressed at time
1 leaves `_last_trigger` = 1, the stored hold-start timestamp, not the
release time 2: line 298 assigns `self._last_trigger = self._trigger_hold`,
never `time.time()`. -/
theorem claim_C2_counterexample :
    (update ⟨1, 10, "bg", 40, fun _ => 50, true, []⟩
        ⟨true, 0, some 1, false, some 0, true, 5, [], []⟩
        ⟨2, false, 0, fun _ => false⟩).toOption.map (fun r => r.1.last_trigger)
      = some (some 1) ∧ some (1 : ℚ) ≠ some (2 : ℚ) := by
  constructor
  · norm_num [update, renderStep, edgeStep, releaseStep, edgeTail, sleepStep,
      Except.toOption]
  · norm_num

/-- C2 amended: immediately after App.update processes a release edge,
`_last_trigger` equals the value `_trigger_hold` had when the release was
processed (the timestamp of the press that started the hold, or of the last
hold-to-switch reset), not the timestamp of the release itself, and
`_trigger_hold` is cleared to None. -/
theorem claim_C2_amended (cfg : Config) (st st' : AppState) (inp : TickInput)
    (ev : List Event) (hok : update cfg st inp = Except.ok (st', ev))
    (hrel : inp.trigger_down = false) (hprev : st.button_change = true) :
    st'.last_trigger = st.trigger_hold ∧ st'.trigger_hold = none := by
  obtain ⟨st1, st2, evT, hr, hst, hev, hbr⟩ := update_cases hok
  obtain ⟨r1, r2, r3, r4, r5, r6, r7, r8, r9, r10⟩ := renderStep_spec hr
  obtain ⟨⟨s1, s2, s3, s4, s5, s6, s7, s8⟩, -, -⟩ := sleepStep_spec cfg st2 inp.now
  subst hst
  rcases hbr with ⟨hne, hes⟩ | ⟨heqb, htd, -⟩ | ⟨heqb, htd, -, -⟩
  · obtain ⟨e1, e2, e3, e4, e5, e6, e7, e8, e9, e10, e11⟩ := edgeStep_spec hes
    obtain ⟨et, el⟩ := e9 hrel
    exact ⟨s5.trans (el.trans r3), s3.trans et⟩
  · rw [hrel] at htd
    exact absurd htd (by simp)
  · rw [hrel, r1, hprev] at heqb
    exact absurd heqb (by simp)

theorem claim_C2_witness :
    (⟨false, 0, none, false, some 1, false, 12, [], []⟩ : AppState).last_trigger = some 1 ∧
    (⟨false, 0, none, false, some 1, false, 12, [], []⟩ : AppState).trigger_hold = none :=
  claim_C2_amended ⟨1, 10, "bg", 40, fun _ => 50, true, []⟩
    ⟨true, 0, some 1, false, some 0, true, 5, [], []⟩
    ⟨false, 0, none, false, some 1, false, 12, [], []⟩
    ⟨2, false, 0, fun _ => false⟩ [Event.setSleep false]
    (by norm_num [update, renderStep, edgeStep, releaseStep, edgeTail, sleepStep]) rfl rfl

/-! C4 -/

theorem nextToolIter_spec (now : ℚ) :
    ∀ (n : ℕ) (st : AppState), st.toolStates.length = st.tools.length →
      st.current_tool < st.tools.length →
      ∃ st', nextToolIter now n st = Except.ok st' ∧
        st'.current_tool = (st.current_tool + n) % st.tools.length ∧
        st'.tools = st.tools ∧ st'.toolStates.length = st.toolStates.length := by
  intro n
  induction n with
  | zero =>
    intro st h1 h2
    refine ⟨st, rfl, ?_, rfl, rfl⟩
    rw [Nat.add_zero, Nat.mod_eq_of_lt h2]
  | succ n ih =>
    intro st h1 h2
    obtain ⟨⟨st1, ev⟩, hr⟩ := next_tool_total st now h1 h2
    obtain ⟨n1, n2, n3, n4, n5, n6, n7, n8, n9, n10, n11⟩ := next_tool_spec hr
    have hL0 : 0 < st.tools.length := by omega
    have h1' : st1.toolStates.length = st1.tools.length := by rw [n10, n3, h1]
    have h2' : st1.current_tool < st1.tools.length := by
      rw [n2, n3]
      exact Nat.mod_lt _ hL0
    obtain ⟨st', hiter, hcur, htools, hlen⟩ := ih st1 h1' h2'
    refine ⟨st', ?_, ?_, htools.trans n3, hlen.trans n10⟩
    · unfold nextToolIter
      rw [hr]
      exact hiter
    · rw [hcur, n2, n3, Nat.mod_add_mod]
      congr 1
      omega

/-- C4: for every tool list of length L ≥ 1 the current tool index stays in
[0, L): next_tool sends it to (index+1) mod L < L, update either keeps it or
advances it the same way and never changes the tool list, and iterating
next_tool N times with N ≡ 0 mod L returns the index to its original
value. -/
theorem claim_C4 (cfg : Config) (st : AppState) (now : ℚ) (inp : TickInput) (n : ℕ)
    (hwf : st.toolStates.length = st.tools.length)
    (hc : st.current_tool < st.tools.length) :
    (∀ st' ev, next_tool st now = Except.ok (st', ev) →
      st'.current_tool < st.tools.length) ∧
    (∀ st' ev, update cfg st inp = Except.ok (st', ev) →
      st'.current_tool < st'.tools.length ∧ st'.tools = st.tools) ∧
    (n % st.tools.length = 0 →
      ∃ st', nextToolIter now n st = Except.ok st' ∧
        st'.current_tool = st.current_tool) := by
  have hL0 : 0 < st.tools.length := by omega
  refine ⟨?_, ?_, ?_⟩
  · intro st' ev h
    obtain ⟨-, n2, -⟩ := next_tool_spec h
    rw [n2]
    exact Nat.mod_lt _ hL0
  · intro st' ev h
    obtain ⟨u1, u2, u3, u4⟩ := update_spec h
    refine ⟨?_, u1⟩
    rw [u1]
    rcases u4 with hcc | hcc <;> rw [hcc]
    · exact hc
    · exact Nat.mod_lt _ hL0
  · intro hmod
    obtain ⟨st', hiter, hcur, -, -⟩ := nextToolIter_spec now n st hwf hc
    refine ⟨st', hiter, ?_⟩
    rw [hcur]
    rw [Nat.add_mod, hmod, Nat.add_zero, Nat.mod_mod_of_dvd _ dvd_rfl,
      Nat.mod_eq_of_lt hc]

theorem claim_C4_witness :
    ((nextToolIter 0 2 (appInit ⟨1, 10, "bg", 40, fun _ => 50, true,
        [⟨"a", none, none, none, none, none, none, none, none, none⟩,
         ⟨"b", none, none, none, none, none, none, none, none, none⟩]⟩ 0)).map
      (fun s => s.current_tool)) = Except.ok 0 := by
  have h := (claim_C4 ⟨1, 10, "bg", 40, fun _ => 50, true,
      [⟨"a", none, none, none, none, none, none, none, none, none⟩,
       ⟨"b", none, none, none, none, none, none, none, none, none⟩]⟩
    (appInit ⟨1, 10, "bg", 40, fun _ => 50, true,
      [⟨"a", none, none, none, none, none, none, none, none, none⟩,
       ⟨"b", none, none, none, none, none, none, none, none, none⟩]⟩ 0)
    0 ⟨0, false, 0, fun _ => false⟩ 2
    (by simp [appInit]) (by simp [appInit])).2.2 (by simp [appInit])
  obtain ⟨st', hiter, hcur⟩ := h
  rw [hiter]
  simp [Except.map, hcur, appInit]

/-! C5 -/

theorem sleepStep_mode (cfg : Config) (st : AppState) (now : ℚ) :
    (sleepStep cfg st now).1.sleep_mode
      = if now > st.sleep_timer ∧ st.sleep_mode = false then true else st.sleep_mode := by
  unfold sleepStep
  split <;> simp_all

/-- C5: any trigger edge sets the sleep deadline to now + sleepTimeout and
forces sleep mode off regardless of the prior sleep state; and the number of
dim/sleep commands a tick emits is 1 exactly when, after the edge handling,
the clock has passed the deadline and sleep mode was not already engaged —
otherwise 0 — so the dim command is issued exactly once per inactivity
period. -/
theorem claim_C5 (cfg : Config) (st st' : AppState) (inp : TickInput) (ev : List Event)
    (hok : update cfg st inp = Except.ok (st', ev)) (hto : 0 ≤ cfg.sleep_timeout) :
    ((inp.trigger_down ≠ st.button_change) →
      st'.sleep_timer = inp.now + cfg.sleep_timeout ∧ st'.sleep_mode = false) ∧
    (ev.count (Event.setSleep true) =
      if inp.now > (if inp.trigger_down ≠ st.button_change
                    then inp.now + cfg.sleep_timeout else st.sleep_timer)
          ∧ (if inp.trigger_down ≠ st.button_change then false else st.sleep_mode) = false
      then 1 else 0) := by
  obtain ⟨st1, st2, evT, hr, hst, hev, hbr⟩ := update_cases hok
  obtain ⟨r1, r2, r3, r4, r5, r6, r7, r8, r9, r10⟩ := renderStep_spec hr
  obtain ⟨⟨s1, s2, s3, s4, s5, s6, s7, s8⟩, scount, -⟩ := sleepStep_spec cfg st2 inp.now
  have smode := sleepStep_mode cfg st2 inp.now
  subst hst hev
  have hbf : (inp.trigger_down ≠ st.button_change →
        st2.sleep_timer = inp.now + cfg.sleep_timeout ∧ st2.sleep_mode = false) ∧
      (inp.trigger_down = st.button_change →
        st2.sleep_timer = st.sleep_timer ∧ st2.sleep_mode = st.sleep_mode) ∧
      evT.count (Event.setSleep true) = 0 := by
    rcases hbr with ⟨hne, hes⟩ | ⟨heqb, htd, t, ht, hcase⟩ | ⟨heqb, htd, hid, hevT⟩
    · obtain ⟨e1, e2, e3, e4, e5, e6, e7, e8, e9, e10, e11⟩ := edgeStep_spec hes
      refine ⟨fun _ => ⟨e4, e3⟩, fun hcontra => ?_, List.count_eq_zero.mpr e11⟩
      rw [r1] at hne
      exact absurd hcontra hne
    · have hne' : ¬ (inp.trigger_down ≠ st.button_change) := by
        rw [heqb, r1]
        simp
      rcases hcase with ⟨-, -, hhs⟩ | ⟨-, hnc⟩
      · obtain ⟨h1, h2, h3, h4, h5, h6, h7, h8, h9, h10, h11⟩ := holdStep_spec hhs
        exact ⟨fun hcontra => absurd hcontra hne',
          fun _ => ⟨h3.trans r7, h2.trans r6⟩, List.count_eq_zero.mpr h8⟩
      · rcases hnc with ⟨th, hth, hgt, hnt⟩ | ⟨-, hid, hevT⟩
        · obtain ⟨n1, n2, n3, n4, n5, n6, n7, n8, n9, n10, n11⟩ := next_tool_spec hnt
          refine ⟨fun hcontra => absurd hcontra hne',
            fun _ => ⟨n9.trans r7, n8.trans r6⟩, ?_⟩
          rw [n1]
          simp
        · subst hid hevT
          exact ⟨fun hcontra => absurd hcontra hne',
            fun _ => ⟨r7, r6⟩, by simp⟩
    · have hne' : ¬ (inp.trigger_down ≠ st.button_change) := by
        rw [heqb, r1]
        simp
      subst hid hevT
      exact ⟨fun hcontra => absurd hcontra hne',
        fun _ => ⟨r7, r6⟩, by simp⟩
  obtain ⟨hedge, hsame, hcnt⟩ := hbf
  by_cases hE : inp.trigger_down ≠ st.button_change
  · obtain ⟨ht2, hm2⟩ := hedge hE
    have hnosleep : ¬ (inp.now > st2.sleep_timer ∧ st2.sleep_mode = false) := by
      rw [ht2]
      intro hcontra
      have := hcontra.1
      linarith
    refine ⟨fun _ => ⟨s6.trans ht2, ?_⟩, ?_⟩
    · rw [smode, if_neg hnosleep]
      exact hm2
    · rw [List.count_append, hcnt, scount, if_neg hnosleep, if_pos hE,
        if_pos hE]
      rw [if_neg (by intro hcontra; have := hcontra.1; linarith)]
  · obtain ⟨ht2, hm2⟩ := hsame (not_ne_iff.mp hE)
    refine ⟨fun hcontra => absurd hcontra hE, ?_⟩
    rw [List.count_append, hcnt, scount, if_neg hE, if_neg hE]
    rw [ht2, hm2]
    omega

theorem claim_C5_witness :
    ((false ≠ (⟨true, 0, some 1, false, some 0, true, 5, [], []⟩ : AppState).button_change) →
      (⟨false, 0, none, false, some 1, false, 12, [], []⟩ : AppState).sleep_timer = 2 + 10 ∧
      (⟨false, 0, none, false, some 1, false, 12, [], []⟩ : AppState).sleep_mode = false) ∧
    (([Event.setSleep false].count (Event.setSleep true) : ℕ) =
      if (2 : ℚ) > (if (false ≠ (⟨true, 0, some 1, false, some 0, true, 5, [], []⟩ : AppState).button_change)
                    then 2 + 10 else (⟨true, 0, some 1, false, some 0, true, 5, [], []⟩ : AppState).sleep_timer)
          ∧ (if (false ≠ (⟨true, 0, some 1, false, some 0, true, 5, [], []⟩ : AppState).button_change)
             then false else (⟨true, 0, some 1, false, some 0, true, 5, [], []⟩ : AppState).sleep_mode) = false
      then 1 else 0) :=
  claim_C5 ⟨1, 10, "bg", 40, fun _ => 50, true, []⟩
    ⟨true, 0, some 1, false, some 0, true, 5, [], []⟩
    ⟨false, 0, none, false, some 1, false, 12, [], []⟩
    ⟨2, false, 0, fun _ => false⟩ [Event.setSleep false]
    (by norm_num [update, renderStep, edgeStep, releaseStep, edgeTail, sleepStep])
    (by norm_num)

/-! C6 -/

theorem getTool_congr {st st1 : AppState} (h1 : st1.tools = st.tools)
    (h2 : st1.current_tool = st.current_tool) :
    getTool st1 st1.current_tool = getTool st st.current_tool := by
  unfold getTool
  rw [h1, h2]

/-- C6: on a tick where the trigger is held (no edge) over a non-holding
tool, at most one tool switch happens (every tick emits at most one "next
item" cue); a switch happens only when now > triggerHoldStart +
toolChangeTimeout held, and it resets triggerHoldStart to now; and when the
hold timer has not yet crossed the timeout, no switch happens at all. -/
theorem claim_C6 (cfg : Config) (st st' : AppState) (inp : TickInput)
    (ev : List Event) (t : Tool)
    (hok : update cfg st inp = Except.ok (st', ev))
    (hheld : inp.trigger_down = true) (hprev : st.button_change = true)
    (htool : getTool st st.current_tool = Except.ok t) (hhold : t.hold = false) :
    ev.count Event.nextItemSound ≤ 1 ∧
    (Event.nextItemSound ∈ ev →
      st'.trigger_hold = some inp.now ∧
      ∃ th, st.trigger_hold = some th ∧ inp.now > th + cfg.tool_change_timeout) ∧
    ((∀ th, st.trigger_hold = some th → ¬ inp.now > th + cfg.tool_change_timeout) →
      ev.count Event.nextItemSound = 0) := by
  obtain ⟨st1, st2, evT, hr, hst, hev, hbr⟩ := update_cases hok
  obtain ⟨r1, r2, r3, r4, r5, r6, r7, r8, r9, r10⟩ := renderStep_spec hr
  obtain ⟨⟨s1, s2, s3, s4, s5, s6, s7, s8⟩, -, snomem⟩ := sleepStep_spec cfg st2 inp.now
  have scnt : (sleepStep cfg st2 inp.now).2.count Event.nextItemSound = 0 :=
    List.count_eq_zero.mpr snomem
  subst hst hev
  rcases hbr with ⟨hne, -⟩ | ⟨heqb, htd, t', ht', hcase⟩ | ⟨-, htd, -, -⟩
  · rw [hheld, r1, hprev] at hne
    exact absurd rfl hne
  · have ht'' : t' = t := by
      rw [getTool_congr r8 r2, htool] at ht'
      injection ht' with he
      exact he.symm
    subst ht''
    rcases hcase with ⟨hcontra, -, -⟩ | ⟨-, hnc⟩
    · rw [hhold] at hcontra
      exact absurd hcontra (by simp)
    rcases hnc with ⟨th, hth, hgt, hnt⟩ | ⟨hnone, hid, hevT⟩
    · obtain ⟨n1, n2, n3, n4, n5, n6, n7, n8, n9, n10, n11⟩ := next_tool_spec hnt
      subst n1
      refine ⟨?_, ?_, ?_⟩
      · rw [List.count_append, scnt]
        simp
      · intro _
        constructor
        · rw [s3, n5]
        · exact ⟨th, r3.symm.trans hth, hgt⟩
      · intro hno
        exact absurd hgt (hno th (r3.symm.trans hth))
    · subst hid hevT
      refine ⟨?_, ?_, ?_⟩
      · rw [List.count_append, scnt]
        simp
      · intro hm
        rw [List.nil_append] at hm
        exact absurd hm snomem
      · intro _
        rw [List.count_append, scnt]
        simp
  · rw [hheld] at htd
    exact absurd htd (by simp)

theorem claim_C6_witness :
    (([] : List Event).count Event.nextItemSound ≤ 1) ∧
    ((∀ th, (some (1 : ℚ) = some th) → ¬ (2 : ℚ) > th + 5) →
      ([] : List Event).count Event.nextItemSound = 0) := by
  have h := claim_C6 ⟨5, 10, "bg", 40, fun _ => 50, true,
      [⟨"t", none, none, none, none, none, none, none, none, none⟩]⟩
    ⟨true, 0, some 1, false, some 0, true, 5,
      [⟨"t", false, [], "random", 0, true, [], "bg", true, true⟩],
      [⟨0, 0, none, 0, [], true⟩]⟩
    ⟨true, 0, some 1, false, some 0, true, 5,
      [⟨"t", false, [], "random", 0, true, [], "bg", true, true⟩],
      [⟨0, 0, none, 0, [], true⟩]⟩
    ⟨2, true, 0, fun _ => false⟩ []
    ⟨"t", false, [], "random", 0, true, [], "bg", true, true⟩
    (by norm_num [update, renderStep, sleepStep, getTool, List.get?])
    rfl rfl (by norm_num [getTool, List.get?]) rfl
  exact ⟨h.1, fun hno => h.2.2 hno⟩

/-! C9 -/

theorem appInit_allLoaded {cfg : Config} {t0 : ℚ} (hlen : cfg.tools.length ≤ MAX_TOOLS) :
    AllLoaded (appInit cfg t0) := by
  intro ts hts
  simp only [appInit] at hts
  rw [List.mem_map] at hts
  obtain ⟨i, hi, hts⟩ := hts
  rw [List.mem_range] at hi
  rw [← hts]
  simp only [initToolState]
  exact decide_eq_true (by omega)

theorem runTicks_allLoaded (cfg : Config) :
    ∀ (inputs : List TickInput) (st stF : AppState) (evs : List Event),
      runTicks cfg inputs st = Except.ok (stF, evs) → AllLoaded st → AllLoaded stF := by
  intro inputs
  induction inputs with
  | nil =>
    intro st stF evs h hall
    unfold runTicks at h
    simp only [Except.ok.injEq, Prod.mk.injEq] at h
    rw [← h.1]
    exact hall
  | cons inp rest ih =>
    intro st stF evs h hall
    unfold runTicks at h
    split at h
    · exact absurd h (by simp)
    rename_i p st' ev hup
    split at h
    · exact absurd h (by simp)
    rename_i q st'' evs' hrest
    simp only [Except.ok.injEq, Prod.mk.injEq] at h
    rw [← h.1]
    exact ih st' st'' evs' hrest ((update_spec hup).2.2.1 hall)

/-- C9: rendering a tool whose content has not been loaded fails the
assertion at main.py line 200 (a fatal precondition violation modelled as an
error, not a normal result); App.__init__ loads content exactly for the
first MAX_TOOLS = 60 tools, so when the tool list has at most 60 tools every
tool of the freshly initialised app is loaded, and all tools remain loaded
across any run of update ticks — hence the assertion branch is never taken
by the render the app itself performs. -/
theorem claim_C9 (cfg : Config) (t : Tool) (s : ToolState) (now t0 : ℚ)
    (w sw : ℕ) (textY : ℤ) (inputs : List TickInput) (stF : AppState)
    (evs : List Event) (hun : s.loaded = false)
    (hmax : cfg.tools.length ≤ MAX_TOOLS)
    (hrun : runTicks cfg inputs (appInit cfg t0) = Except.ok (stF, evs)) :
    Tool.render t s now w sw textY
      = Except.error "AssertionError: Tool content has not been loaded!!" ∧
    AllLoaded (appInit cfg t0) ∧ AllLoaded stF := by
  refine ⟨?_, appInit_allLoaded hmax,
    runTicks_allLoaded cfg inputs _ stF evs hrun (appInit_allLoaded hmax)⟩
  unfold Tool.render
  rw [if_pos hun]

theorem claim_C9_witness :
    Tool.render ⟨"t", false, [], "random", 0, true, [], "bg", true, true⟩
        ⟨0, 0, none, 0, [], false⟩ 0 50 240 40
      = Except.error "AssertionError: Tool content has not been loaded!!" ∧
    AllLoaded (appInit ⟨1, 10, "bg", 40, fun _ => 50, true,
      [⟨"t", none, none, none, none, none, none, none, none, none⟩]⟩ 0) ∧
    AllLoaded (appInit ⟨1, 10, "bg", 40, fun _ => 50, true,
      [⟨"t", none, none, none, none, none, none, none, none, none⟩]⟩ 0) :=
  claim_C9 ⟨1, 10, "bg", 40, fun _ => 50, true,
      [⟨"t", none, none, none, none, none, none, none, none, none⟩]⟩
    ⟨"t", false, [], "random", 0, true, [], "bg", true, true⟩
    ⟨0, 0, none, 0, [], false⟩ 0 0 50 240 40 [] _ [] rfl (by decide) rfl

/-! C3 -/

/-- Configuration for the hold-to-switch scenario: tool_change_timeout = 1 s,
first tool has hold = true. -/
def c3Config : Config :=
  ⟨1, 1000, "bg.png", 40, fun _ => 50, true,
   [⟨"a", some true, none, none, none, none, none, none, none, none⟩,
    ⟨"b", none, none, none, none, none, none, none, none, none⟩]⟩

/-- Playback oracle: no playback is still running. -/
def c3Idle : ℕ → Bool := fun _ => false

/-- Trigger pressed at t = 100 and held through t = 102.5 (2.5 s, no release
edge), with the previous trigger release far in the past (the app was
initialised at t = 0, so _last_trigger = 0). -/
def c3StaleTrace : List TickInput :=
  [⟨100, true, 0, c3Idle⟩, ⟨201/2, true, 0, c3Idle⟩, ⟨5051/50, true, 0, c3Idle⟩,
   ⟨203/2, true, 0, c3Idle⟩, ⟨5101/50, true, 0, c3Idle⟩, ⟨205/2, true, 0, c3Idle⟩]

/-- A quick tap at t = 99.9/100.0 followed by a press at t = 100.1 held
through t = 102.6 (2.5 s of continuous hold, no release during the hold). -/
def c3TapHoldTrace : List TickInput :=
  [⟨999/10, true, 0, c3Idle⟩, ⟨100, false, 0, c3Idle⟩, ⟨1001/10, true, 0, c3Idle⟩,
   ⟨506/5, true, 0, c3Idle⟩, ⟨1023/10, true, 0, c3Idle⟩, ⟨513/5, true, 0, c3Idle⟩]

/-- C3 counterexample: with toolChangeTimeout = 1, a hold = true tool, and
the trigger held continuously for 2.5 s with no release edge, zero tool
switches occur when the previous trigger was long ago: the hold branch
requires now − _last_trigger < 0.5 + toolChangeTimeout (main.py line 313),
and while it keeps matching, the fallback switch branch (line 318) is
unreachable, so the claim's "at least two switches regardless of when the
previous trigger release happened" fails. -/
theorem claim_C3_counterexample :
    ((runTicks c3Config c3StaleTrace (appInit c3Config 0)).toOption.map
      (fun r => r.2.count Event.nextItemSound) = some 0) ∧ ¬ (2 ≤ (0 : ℕ)) := by
  constructor
  · norm_num [runTicks, update, renderStep, edgeStep, pressStep, releaseStep, edgeTail,
      sleepStep, holdStep, next_tool, getTool, getToolState, setToolState, asNum,
      appInit, initToolState, mkTool, c3Config, c3StaleTrace, Tool.render, Tool.trigger,
      Tool.loop, Tool.play_sound, descStep, managePlaybacks, startPlayback, xScroll,
      pyMod, blendFactor, yellowFadeTime, titleWidth, screenWidth, MAX_TOOLS, List.get?,
      Except.toOption, resetToolState, List.range, List.count_cons, List.count_nil]
    decide
  · decide

/-- C3 amended: with toolChangeTimeout = 1 and a hold = true active tool, a
trigger held continuously for 2.5 s with no release edge produces at least
two tool switches — at ~1 s of hold (the hold-to-switch branch) and ~2 s (the
fallback branch, since wasChangingTool is then set) — provided the hold
begins soon enough after the previous trigger that now − lastTrigger <
0.5 + toolChangeTimeout still holds when the hold first crosses the timeout
(lastTrigger records the previous hold-start timestamp).  Here: tap at
t = 99.9, press at t = 100.1 held to 102.6; one switch has occurred by the
tick at t = 101.2 (~1.1 s of hold) and a second by t = 102.3 (~2.2 s). -/
theorem claim_C3_amended :
    ((runTicks c3Config (c3TapHoldTrace.take 4) (appInit c3Config 0)).toOption.map
      (fun r => r.2.count Event.nextItemSound) = some 1) ∧
    ((runTicks c3Config c3TapHoldTrace (appInit c3Config 0)).toOption.map
      (fun r => r.2.count Event.nextItemSound) = some 2) := by
  constructor <;>
  · norm_num [runTicks, update, renderStep, edgeStep, pressStep, releaseStep, edgeTail,
      sleepStep, holdStep, next_tool, getTool, getToolState, setToolState, asNum,
      appInit, initToolState, mkTool, c3Config, c3TapHoldTrace, Tool.render, Tool.trigger,
      Tool.loop, Tool.play_sound, descStep, managePlaybacks, startPlayback, xScroll,
      pyMod, blendFactor, yellowFadeTime, titleWidth, screenWidth, MAX_TOOLS, List.get?,
      Except.toOption, resetToolState, List.range, List.count_cons, List.count_nil]
    decide

end Toolgun
